import Mathlib

set_option maxRecDepth 100000

/-!
Shallow embedding of the bulk-upload pipeline of this repository
(`upload/tasks.py` and `upload/models.py`).

Modelling conventions:
  * A pandas cell read with `dtype=str` is either a missing value (`NaN`)
    or a string: `Cell`.
  * A Python float value is modelled exactly as `PyFloat`: `nan`, signed
    infinity, or a rational number (IEEE rounding is irrelevant to every
    property considered here and is not modelled).
  * A raised Python exception is modelled by an `Option`/`Except` error
    value; functions that cannot raise are total.
  * `pd.to_datetime` in coerce-errors mode never raises; the actual datetime
    value is irrelevant to every property here, so the chunk processor is
    parameterised by an arbitrary total date-parsing function `pdDate`
    (returning `none` for `NaT`).
  * The database tables are modelled by `Store`; the outcome of each
    sub-batch `bulk_create` call is injected via `insertOk : Nat → Bool`
    so that partial-failure behaviour can be analysed.
-/

namespace Upload

/-- A pandas cell of a DataFrame read with `dtype=str`: missing (`NaN`) or a
string. -/
inductive Cell where
  | nan : Cell
  | str (s : String) : Cell
deriving DecidableEq, Repr

/-- A Python float value, modelled exactly: `nan`, signed infinity, or a
rational number. -/
inductive PyFloat where
  | nan : PyFloat
  | inf (neg : Bool) : PyFloat
  | num (q : ℚ) : PyFloat
deriving DecidableEq, Repr

/-- Python whitespace characters recognised by `str.split()` / `str.strip()`
(ASCII subset; the claims only involve ASCII headers). -/
def pyIsSpace (c : Char) : Bool :=
  c == ' ' || c == '\t' || c == '\n' || c == '\r' || c == Char.ofNat 11 || c == Char.ofNat 12

/-- Worker for Python `str.split()` (no separator argument): tokenize on runs
of whitespace, discarding empty tokens.  `cur` is the reversed current
token. -/
def pySplitGo (cur : List Char) : List Char → List (List Char)
  | [] => if cur.isEmpty then [] else [cur.reverse]
  | c :: cs =>
    if pyIsSpace c then
      if cur.isEmpty then pySplitGo [] cs else cur.reverse :: pySplitGo [] cs
    else pySplitGo (c :: cur) cs

/-- Python `column_name.split()`. -/
def pySplit (l : List Char) : List (List Char) := pySplitGo [] l

/-- Python `str.strip()`: remove leading and trailing whitespace. -/
def pyStripChars (l : List Char) : List Char :=
  ((l.dropWhile pyIsSpace).reverse.dropWhile pyIsSpace).reverse

/-- Embedding of `clean_column_name` (`upload/tasks.py`):
`parts = column_name.split()`; join the non-empty parts; remove every
character in `['.', '_']`; `strip()` the result. -/
def clean_column_name (s : String) : String :=
  let parts := pySplit s.data
  let joined := (parts.filter (fun p => !p.isEmpty)).flatten
  let cleaned := joined.filter (fun c => !(['.', '_'].contains c))
  ⟨pyStripChars cleaned⟩

/-- Numeric value of a list of decimal digit characters (most significant
first). -/
def digitsToNat (l : List Char) : ℕ :=
  l.foldl (fun a c => 10 * a + (c.toNat - 48)) 0

/-- Exponent part of a Python float literal: optional sign followed by at
least one digit, consuming the whole remainder. -/
def parseExpPart (l : List Char) : Option ℤ :=
  match l with
  | '+' :: d => if !d.isEmpty && d.all Char.isDigit then some (Int.ofNat (digitsToNat d)) else none
  | '-' :: d => if !d.isEmpty && d.all Char.isDigit then some (-Int.ofNat (digitsToNat d)) else none
  | d => if !d.isEmpty && d.all Char.isDigit then some (Int.ofNat (digitsToNat d)) else none

/-- Scale a rational mantissa by a signed power of ten (built with `mkRat`,
which evaluates inside the kernel). -/
def scalePow10 (q : ℚ) : ℤ → ℚ
  | Int.ofNat k => mkRat (q.num * Int.ofNat (10 ^ k)) q.den
  | Int.negSucc k => mkRat q.num (q.den * 10 ^ (k + 1))

/-- Unsigned numeric Python float literal: `digits [. digits] [(e|E) exp]`
with at least one digit in the mantissa.  Underscore digit separators
(accepted by CPython) are not modelled; no claim involves them. -/
def parseUnsignedFloat (l : List Char) : Option ℚ :=
  let ipr := l.span Char.isDigit
  match ipr.2 with
  | [] => if ipr.1.isEmpty then none else some (mkRat (Int.ofNat (digitsToNat ipr.1)) 1)
  | '.' :: r2 =>
    let fpr := r2.span Char.isDigit
    if ipr.1.isEmpty && fpr.1.isEmpty then none
    else
      let m : ℚ :=
        mkRat (Int.ofNat (digitsToNat ipr.1 * 10 ^ fpr.1.length + digitsToNat fpr.1))
          (10 ^ fpr.1.length)
      match fpr.2 with
      | [] => some m
      | e :: r4 =>
        if e == 'e' || e == 'E' then (parseExpPart r4).map (scalePow10 m)
        else none
  | e :: r4 =>
    if e == 'e' || e == 'E' then
      if ipr.1.isEmpty then none
      else (parseExpPart r4).map (scalePow10 (mkRat (Int.ofNat (digitsToNat ipr.1)) 1))
    else none

/-- Magnitude at which an IEEE binary64 conversion overflows to infinity
(approximated by `2 ^ 1024`; the exact half-way threshold is irrelevant to
every claim). -/
def floatOverflowBound : ℚ := mkRat (Int.ofNat (2 ^ 1024)) 1

/-- Core of Python `float(str)` after the optional sign has been removed:
`inf` / `nan` keywords, or a numeric literal, overflowing to infinity at
`floatOverflowBound`. -/
def parseFloatCore (l : List Char) (neg : Bool) : Option PyFloat :=
  let low := l.map Char.toLower
  if low = ['i', 'n', 'f'] || low = ['i', 'n', 'f', 'i', 'n', 'i', 't', 'y'] then
    some (PyFloat.inf neg)
  else if low = ['n', 'a', 'n'] then some PyFloat.nan
  else
    (parseUnsignedFloat l).map fun q =>
      if Rat.blt q floatOverflowBound then PyFloat.num (if neg then Rat.neg q else q)
      else PyFloat.inf neg

/-- Embedding of Python `float(s)` on a string argument: strip surrounding
whitespace, optional sign, then `inf`/`nan`/numeric literal.  `none` models
the `ValueError` raised on a malformed string. -/
def pyParseFloat (s : String) : Option PyFloat :=
  match pyStripChars s.data with
  | '+' :: r => parseFloatCore r false
  | '-' :: r => parseFloatCore r true
  | r => parseFloatCore r false

/-- Python `int(float)` truncation toward zero on our exact rationals:
`Int.tdiv` is T-division (rounds toward zero), so on the normalized numerator
and denominator it is exactly Python `int()` truncation. -/
def pyTruncQ (q : ℚ) : ℤ :=
  Int.tdiv q.num (Int.ofNat q.den)

/-- Embedding of `convert_to_int` (`upload/tasks.py`): `None` for missing
(`pd.isna`) or empty-string input; otherwise `int(float(val))`; a
`ValueError` (malformed literal, or `int(nan)`) or `OverflowError`
(`int(inf)`) is caught and yields `None`.  The function is total: it never
propagates an exception. -/
def convert_to_int (c : Cell) : Option ℤ :=
  match c with
  | Cell.nan => none
  | Cell.str s =>
    if s = "" then none
    else
      match pyParseFloat s with
      | none => none
      | some PyFloat.nan => none
      | some (PyFloat.inf _) => none
      | some (PyFloat.num q) => some (pyTruncQ q)

/-- `convert_to_int` applied through Python `row.get` (which returns `None`
for an absent column; `pd.isna(None)` is true, so the result is `None`). -/
def convertToIntOpt : Option Cell → Option ℤ
  | none => none
  | some c => convert_to_int c

/-- A canonical booking record as assembled by `process_dataframe_chunk`
(the `transaction_data` dict of the booking pass); dates are abstract
(`none` models `NaT`). -/
structure BookingRec where
  bank_code : Option ℤ
  irctc_order_no : Option ℤ
  bank_booking_ref_no : Option ℤ
  booking_amount : PyFloat
  transaction_date : Option ℤ
  credited_date : Option ℤ
deriving DecidableEq, Repr

/-- A canonical refund record as assembled by `process_dataframe_chunk`
(the `transaction_data` dict of the refund pass). -/
structure RefundRec where
  bank_code : Option ℤ
  irctc_order_no : Option ℤ
  bank_booking_ref_no : Option ℤ
  bank_refund_ref_no : Option ℤ
  refund_amount : PyFloat
  refund_date : Option ℤ
  debited_date : Option ℤ
deriving DecidableEq, Repr

/-- `BANK_CODE_MAPPING.get(bank_name)` (`upload/tasks.py`). -/
def BANK_CODE_MAPPING (bank : String) : Option ℤ :=
  [("hdfc", (101 : ℤ)), ("icici", 102), ("karur_vysya", 40)].lookup bank

/-- The `karur_vysya` booking `column_mapping` of `BANK_MAPPINGS`. -/
def bookingColumnMapping : List (String × String) :=
  [("IRCTCORDERNO", "irctc_order_no"),
   ("BANKBOOKINGREFNO", "bank_booking_ref_no"),
   ("BOOKINGAMOUNT", "booking_amount"),
   ("TXNDATE", "transaction_date"),
   ("CREDITEDON", "credited_date")]

/-- The `karur_vysya` refund `column_mapping` of `BANK_MAPPINGS`. -/
def refundColumnMapping : List (String × String) :=
  [("IRCTCORDERNO", "irctc_order_no"),
   ("REFUNDAMOUNT", "refund_amount"),
   ("DEBITEDON", "debited_date"),
   ("REFUNDDATE", "refund_date"),
   ("BANKBOOKINGREFNO", "bank_booking_ref_no"),
   ("BANKREFUNDREFNO", "bank_refund_ref_no")]

/-- The `df_chunk.rename` call: the five booking entries plus every refund
entry whose key is among the current (cleaned) columns; unmapped columns are
unchanged.  The overlapping keys map to identical values in both dicts, so
lookup order is immaterial. -/
def renameColumns (cleaned : List String) : List String :=
  let m := bookingColumnMapping ++ refundColumnMapping.filter (fun p => cleaned.contains p.1)
  cleaned.map (fun c => (m.lookup c).getD c)

/-- Positional cell of `row` under column name `c` (first matching column);
`none` models a `KeyError` on direct `row[c]` indexing and the `None`
default of `row.get(c)`. -/
def rowIndex (cols : List String) (row : List Cell) (c : String) : Option Cell :=
  match cols.findIdx? (· == c) with
  | none => none
  | some i => row.get? i

/-- True when a cell is present and not `NaN` (the `dropna` criterion). -/
def cellNotNa : Option Cell → Bool
  | some (Cell.str _) => true
  | _ => false

/-- Python truthiness of an int-or-`None` value: the record-eligibility test
`if transaction_data[k1] and transaction_data[k2]` treats both `None` and
`0` as false. -/
def pyTruthy : Option ℤ → Bool
  | none => false
  | some n => n != 0

/-- Membership of an int-or-`None` value in a seen-set of ints (`None` is
never an element of the set, which only ever receives ints). -/
def optMem (o : Option ℤ) (s : List ℤ) : Bool :=
  match o with
  | none => false
  | some n => s.contains n

/-- `seen.add(irctc_order_no)`; only reached when the key is a truthy int. -/
def insertKey (o : Option ℤ) (s : List ℤ) : List ℤ :=
  match o with
  | some n => n :: s
  | none => s

/-- Accumulator of one dedup-and-assemble pass: the seen order numbers and
the accepted records so far. -/
structure PassState (α : Type) where
  seen : List ℤ
  recs : List α
deriving DecidableEq, Repr

/-- The `float(row.get(c, 0.0))` amount conversion: an absent column gives
the `0.0` default; a present `NaN` cell gives `float(nan) = nan`; a present
string goes through `float(str)`, whose `ValueError` (`none`) propagates. -/
def amountGet (cols : List String) (row : List Cell) (c : String) : Option PyFloat :=
  match rowIndex cols row c with
  | none => some (PyFloat.num 0)
  | some Cell.nan => some PyFloat.nan
  | some (Cell.str s) => pyParseFloat s

/-- One iteration of the booking loop of `process_dataframe_chunk`
(lines 169-189 of `upload/tasks.py`): convert the two key cells, skip the
row if either converted key is among the seen order numbers, build
`transaction_data`, and accept the row (recording its order number as seen)
exactly when both keys are truthy.  `none` models a propagating exception
(`KeyError` on a missing key column, `ValueError` from `float`). -/
def bookingStep (bank : String) (pdDate : Option Cell → Option ℤ) (cols : List String)
    (st : PassState BookingRec) (row : List Cell) : Option (PassState BookingRec) :=
  match rowIndex cols row "irctc_order_no", rowIndex cols row "bank_booking_ref_no" with
  | some co, some cr =>
    let o := convert_to_int co
    let r := convert_to_int cr
    if optMem o st.seen || optMem r st.seen then some st
    else
      match amountGet cols row "booking_amount" with
      | none => none
      | some amt =>
        let tx : BookingRec :=
          ⟨BANK_CODE_MAPPING bank, o, r, amt,
            pdDate (rowIndex cols row "transaction_date"),
            pdDate (rowIndex cols row "credited_date")⟩
        if pyTruthy o && pyTruthy r then some ⟨insertKey o st.seen, st.recs ++ [tx]⟩
        else some st
  | _, _ => none

/-- The booking loop over the rows of a chunk. -/
def bookingPass (bank : String) (pdDate : Option Cell → Option ℤ) (cols : List String)
    (st : PassState BookingRec) : List (List Cell) → Option (PassState BookingRec)
  | [] => some st
  | row :: rest =>
    match bookingStep bank pdDate cols st row with
    | none => none
    | some st2 => bookingPass bank pdDate cols st2 rest

/-- One iteration of the refund loop of `process_dataframe_chunk`
(lines 198-218 of `upload/tasks.py`); structure mirrors `bookingStep` with
keys `irctc_order_no` and `bank_refund_ref_no`, and `bank_booking_ref_no`
read through `row.get` (no exception on absence). -/
def refundStep (bank : String) (pdDate : Option Cell → Option ℤ) (cols : List String)
    (st : PassState RefundRec) (row : List Cell) : Option (PassState RefundRec) :=
  match rowIndex cols row "irctc_order_no", rowIndex cols row "bank_refund_ref_no" with
  | some co, some cf =>
    let o := convert_to_int co
    let f := convert_to_int cf
    if optMem o st.seen || optMem f st.seen then some st
    else
      match amountGet cols row "refund_amount" with
      | none => none
      | some amt =>
        let tx : RefundRec :=
          ⟨BANK_CODE_MAPPING bank, o,
            convertToIntOpt (rowIndex cols row "bank_booking_ref_no"), f, amt,
            pdDate (rowIndex cols row "refund_date"),
            pdDate (rowIndex cols row "debited_date")⟩
        if pyTruthy o && pyTruthy f then some ⟨insertKey o st.seen, st.recs ++ [tx]⟩
        else some st
  | _, _ => none

/-- The refund loop over the rows of a chunk. -/
def refundPass (bank : String) (pdDate : Option Cell → Option ℤ) (cols : List String)
    (st : PassState RefundRec) : List (List Cell) → Option (PassState RefundRec)
  | [] => some st
  | row :: rest =>
    match refundStep bank pdDate cols st row with
    | none => none
    | some st2 => refundPass bank pdDate cols st2 rest

/-- The `expected_booking_columns` list of `process_dataframe_chunk`. -/
def expected_booking_columns : List String :=
  ["transaction_date", "irctc_order_no", "bank_booking_ref_no", "booking_amount",
   "credited_date"]

/-- The `expected_refund_columns` list of `process_dataframe_chunk`. -/
def expected_refund_columns : List String :=
  ["refund_date", "irctc_order_no", "bank_booking_ref_no", "bank_refund_ref_no",
   "refund_amount", "debited_date"]

/-- The `dropna` over the two common key columns (lines 144-148 of
`upload/tasks.py`): a row survives iff neither key cell is missing. -/
def dropnaCommon (renamed : List String) (rows : List (List Cell)) :
    List (List Cell) :=
  rows.filter fun r =>
    cellNotNa (rowIndex renamed r "irctc_order_no") &&
      cellNotNa (rowIndex renamed r "bank_booking_ref_no")

/-- The two guarded passes of `process_dataframe_chunk` on the surviving
rows: an early return with empty batches when nothing survived the
`dropna`, then the booking pass (when the transaction type selects it and
all expected booking columns are present) and the refund pass (under its
analogous guard). -/
def assembleBatches (bank ttype : String) (pdDate : Option Cell → Option ℤ)
    (renamed : List String) (kept : List (List Cell)) :
    Option (List BookingRec × List RefundRec) :=
  if kept.isEmpty then some ([], [])
  else
    match (if (ttype == "both" || ttype == "booking") &&
              expected_booking_columns.all (fun c => renamed.contains c) then
             bookingPass bank pdDate renamed ⟨[], []⟩ kept
           else some ⟨[], []⟩) with
    | none => none
    | some bst =>
      match (if (ttype == "both" || ttype == "refund") &&
                expected_refund_columns.all (fun c => renamed.contains c) then
               refundPass bank pdDate renamed ⟨[], []⟩ kept
             else some ⟨[], []⟩) with
      | none => none
      | some rst => some (bst.recs, rst.recs)

/-- Embedding of the assembly part of `process_dataframe_chunk`
(`upload/tasks.py`): clean and rename the columns, `dropna` on the two
common key columns (a `KeyError` if either is absent, like an unknown bank
at the `BANK_MAPPINGS` lookup), then run the guarded passes.  The result is
the pair of assembled batches handed to the bulk loaders; `none` models a
propagating exception. -/
def process_dataframe_chunk (bank ttype : String) (pdDate : Option Cell → Option ℤ)
    (cols : List String) (rows : List (List Cell)) :
    Option (List BookingRec × List RefundRec) :=
  if bank == "karur_vysya" then
    if (renameColumns (cols.map clean_column_name)).contains "irctc_order_no" &&
        (renameColumns (cols.map clean_column_name)).contains "bank_booking_ref_no" then
      assembleBatches bank ttype pdDate (renameColumns (cols.map clean_column_name))
        (dropnaCommon (renameColumns (cols.map clean_column_name)) rows)
    else none
  else none

/-- Decidable equality for `Except`, used to evaluate loader results on
concrete inputs. -/
instance {ε α : Type} [DecidableEq ε] [DecidableEq α] : DecidableEq (Except ε α) :=
  fun a b =>
    match a, b with
    | Except.error e, Except.error f =>
      if h : e = f then isTrue (by rw [h]) else isFalse (fun hh => h (by cases hh; rfl))
    | Except.ok x, Except.ok y =>
      if h : x = y then isTrue (by rw [h]) else isFalse (fun hh => h (by cases hh; rfl))
    | Except.error _, Except.ok _ => isFalse (fun hh => by cases hh)
    | Except.ok _, Except.error _ => isFalse (fun hh => by cases hh)

/-- The database tables (`upload/models.py`): the non-null IRCTC order
numbers present in each table (what the pre-insert existence query can
match) together with the persisted rows. -/
structure Store where
  bookingOrders : List ℤ
  refundOrders : List ℤ
  bookings : List BookingRec
  refunds : List RefundRec
deriving DecidableEq, Repr

/-- The `new_transactions` list of `bulk_create_booking_transactions`:
`existing_orders` is the set of order numbers already in the table among
the candidates' order numbers, and a candidate survives iff its order
number (possibly `None`, which matches no table row) is not in it. -/
def new_booking_transactions (dbOrders : List ℤ) (txs : List BookingRec) :
    List BookingRec :=
  let cand := txs.filterMap BookingRec.irctc_order_no
  let existing := dbOrders.filter (fun n => cand.contains n)
  txs.filter fun t =>
    match t.irctc_order_no with
    | some n => !existing.contains n
    | none => true

/-- The `new_transactions` list of `bulk_create_refund_transactions`. -/
def new_refund_transactions (dbOrders : List ℤ) (txs : List RefundRec) :
    List RefundRec :=
  let cand := txs.filterMap RefundRec.irctc_order_no
  let existing := dbOrders.filter (fun n => cand.contains n)
  txs.filter fun t =>
    match t.irctc_order_no with
    | some n => !existing.contains n
    | none => true

/-- Fuel-based worker for `chunksOf`; structural recursion on the fuel keeps
it reducible inside the kernel.  With `n ≥ 1` and fuel at least the length
of the list the fuel never runs out. -/
def chunksOfGo (n : ℕ) : ℕ → List α → List (List α)
  | _, [] => []
  | 0, _ :: _ => []
  | fuel + 1, x :: xs => (x :: xs).take n :: chunksOfGo n fuel ((x :: xs).drop n)

/-- Split a list into consecutive chunks of size `n` (the
`range(0, len, batch_size)` slicing of the bulk loaders and the excel
reader). -/
def chunksOf (n : ℕ) (l : List α) : List (List α) :=
  if n == 0 then [] else chunksOfGo n l.length l

/-- Commit one sub-batch of bookings: `bulk_create` with `ignore_conflicts`
inserts every row (the active model declares no uniqueness constraint), so
the rows and their non-null order numbers are appended to the table. -/
def commitBookings (st : Store) (b : List BookingRec) : Store :=
  ⟨st.bookingOrders ++ b.filterMap BookingRec.irctc_order_no, st.refundOrders,
    st.bookings ++ b, st.refunds⟩

/-- Commit one sub-batch of refunds. -/
def commitRefunds (st : Store) (b : List RefundRec) : Store :=
  ⟨st.bookingOrders, st.refundOrders ++ b.filterMap RefundRec.irctc_order_no,
    st.bookings, st.refunds ++ b⟩

/-- The sub-batch loop of `bulk_create_booking_transactions`: each sub-batch
is inserted in its own transaction; a failing sub-batch (injected through
`insertOk`) leaves the store as committed so far and raises (`Except.error`
carries the store at the moment of the raise); later sub-batches are not
attempted. -/
def runBookingBatches (insertOk : ℕ → Bool) : ℕ → Store → List (List BookingRec) →
    Except Store Store
  | _, st, [] => Except.ok st
  | k, st, b :: bs =>
    if insertOk k then runBookingBatches insertOk (k + 1) (commitBookings st b) bs
    else Except.error st

/-- The sub-batch loop of `bulk_create_refund_transactions`. -/
def runRefundBatches (insertOk : ℕ → Bool) : ℕ → Store → List (List RefundRec) →
    Except Store Store
  | _, st, [] => Except.ok st
  | k, st, b :: bs =>
    if insertOk k then runRefundBatches insertOk (k + 1) (commitRefunds st b) bs
    else Except.error st

/-- Embedding of `BookingTransaction.bulk_create_booking_transactions`
(`upload/models.py`): pre-insert existence check, then sub-batches of 500
inserted one transaction each; returns the number of records submitted for
insertion (`len(new_transactions)`), or 0 when nothing was new.  An
`Except.error` carries the partially-updated store of the failed call. -/
def bulk_create_booking_transactions (insertOk : ℕ → Bool) (st : Store)
    (txs : List BookingRec) : Except Store (Store × ℕ) :=
  let newTxs := new_booking_transactions st.bookingOrders txs
  if newTxs.isEmpty then Except.ok (st, 0)
  else
    match runBookingBatches insertOk 0 st (chunksOf 500 newTxs) with
    | Except.error st2 => Except.error st2
    | Except.ok st2 => Except.ok (st2, newTxs.length)

/-- Embedding of `RefundTransaction.bulk_create_refund_transactions`
(`upload/models.py`). -/
def bulk_create_refund_transactions (insertOk : ℕ → Bool) (st : Store)
    (txs : List RefundRec) : Except Store (Store × ℕ) :=
  let newTxs := new_refund_transactions st.refundOrders txs
  if newTxs.isEmpty then Except.ok (st, 0)
  else
    match runRefundBatches insertOk 0 st (chunksOf 500 newTxs) with
    | Except.error st2 => Except.error st2
    | Except.ok st2 => Except.ok (st2, newTxs.length)

/-- One chunk of `process_uploaded_files`: assemble the batches with
`process_dataframe_chunk` and, when non-empty, hand them to the bulk
loaders (lines 220-226 of `upload/tasks.py`).  An `Except.error` carries
the store at the moment the exception escapes. -/
def processChunkAndInsert (insertOkB insertOkR : ℕ → Bool)
    (pdDate : Option Cell → Option ℤ) (bank ttype : String) (cols : List String)
    (rows : List (List Cell)) (st : Store) : Except Store Store :=
  match process_dataframe_chunk bank ttype pdDate cols rows with
  | none => Except.error st
  | some (bk, rf) =>
    match (if bk.isEmpty then Except.ok (st, 0)
           else bulk_create_booking_transactions insertOkB st bk) with
    | Except.error st1 => Except.error st1
    | Except.ok (st1, _) =>
      match (if rf.isEmpty then Except.ok (st1, 0)
             else bulk_create_refund_transactions insertOkR st1 rf) with
      | Except.error st2 => Except.error st2
      | Except.ok (st2, _) => Except.ok st2

/-- An uploaded file, already parsed by the external reader
(`pd.read_excel` / `pd.read_csv` with `dtype=str`): raw header strings and
rows of cells. -/
structure DF where
  cols : List String
  rows : List (List Cell)
deriving DecidableEq, Repr

/-- Observable outcome of one `process_uploaded_files` invocation: the final
store, the indices of files for which the no-data error was logged, the
chunk-processing calls performed (file index, chunk index), and whether an
exception propagated to the caller. -/
structure OrchResult where
  store : Store
  emptyLogged : List ℕ
  chunksRun : List (ℕ × ℕ)
  raised : Bool
deriving DecidableEq, Repr

/-- The chunk loop of one file inside `process_uploaded_files`: process each
chunk in order; a chunk-level exception is caught by the surrounding
`except`, logged and re-raised, so it surfaces as an error. -/
def processFileChunks (insertOkB insertOkR : ℕ → Bool)
    (pdDate : Option Cell → Option ℤ) (bank ttype : String) (cols : List String)
    (fileIdx : ℕ) (st : Store) (run : List (ℕ × ℕ)) :
    ℕ → List (List (List Cell)) → Except (Store × List (ℕ × ℕ)) (Store × List (ℕ × ℕ))
  | _, [] => Except.ok (st, run)
  | cIdx, ch :: rest =>
    if ch.isEmpty then
      processFileChunks insertOkB insertOkR pdDate bank ttype cols fileIdx st run
        (cIdx + 1) rest
    else
      match processChunkAndInsert insertOkB insertOkR pdDate bank ttype cols ch st with
      | Except.error st2 => Except.error (st2, run ++ [(fileIdx, cIdx)])
      | Except.ok st2 =>
        processFileChunks insertOkB insertOkR pdDate bank ttype cols fileIdx st2
          (run ++ [(fileIdx, cIdx)]) (cIdx + 1) rest

/-- The file loop of `process_uploaded_files` (`upload/tasks.py`,
lines 70-109).  In the excel branch a zero-row file logs an error and
executes `return`, ending the whole invocation normally; in the csv branch
empty chunks are skipped; an unknown format raises `ValueError`, which the
surrounding `except` logs and re-raises. -/
def processFilesGo (insertOkB insertOkR : ℕ → Bool)
    (pdDate : Option Cell → Option ℤ) (bank ttype fmt : String) (i : ℕ) (st : Store)
    (log : List ℕ) (run : List (ℕ × ℕ)) : List DF → OrchResult
  | [] => ⟨st, log, run, false⟩
  | df :: rest =>
    if fmt == "excel" then
      if df.rows.length == 0 then ⟨st, log ++ [i], run, false⟩
      else
        match processFileChunks insertOkB insertOkR pdDate bank ttype df.cols i st run 0
            (chunksOf 50000 df.rows) with
        | Except.error (st2, run2) => ⟨st2, log, run2, true⟩
        | Except.ok (st2, run2) =>
          processFilesGo insertOkB insertOkR pdDate bank ttype fmt (i + 1) st2 log run2 rest
    else if fmt == "csv" then
      match processFileChunks insertOkB insertOkR pdDate bank ttype df.cols i st run 0
          (chunksOf 50000 df.rows) with
      | Except.error (st2, run2) => ⟨st2, log, run2, true⟩
      | Except.ok (st2, run2) =>
        processFilesGo insertOkB insertOkR pdDate bank ttype fmt (i + 1) st2 log run2 rest
    else ⟨st, log, run, true⟩

/-- Embedding of the task `process_uploaded_files` (`upload/tasks.py`):
iterate over the uploaded files from index 0 with an empty log against the
given store. -/
def process_uploaded_files (insertOkB insertOkR : ℕ → Bool)
    (pdDate : Option Cell → Option ℤ) (bank ttype fmt : String) (files : List DF)
    (st : Store) : OrchResult :=
  processFilesGo insertOkB insertOkR pdDate bank ttype fmt 0 st [] [] files


/-- The raw booking header row of the `karur_vysya` layout, as found in the
`BANK_MAPPINGS` registry; used by the concrete evaluations below. -/
def kvBookingHeaders : List String :=
  ["TXN DATE", "IRCTC ORDER NO.", "BANK BOOKING REF.NO.", "BOOKING AMOUNT", "CREDITED ON"]

/-- A date-parsing stub for concrete evaluations: every cell coerces to
`NaT`. -/
def noDate : Option Cell → Option ℤ := fun _ => none

/-- A booking row fixture under `kvBookingHeaders`: transaction date, order
number, booking reference, amount, credited date. -/
def bkRow (o r a : Cell) : List Cell :=
  [Cell.str "01-01-2024", o, r, a, Cell.str "05-01-2024"]

/-- The empty store fixture. -/
def emptyStore : Store := ⟨[], [], [], []⟩

/-- A booking record fixture. -/
def bkTx : BookingRec := ⟨some 40, some 1, some 2, PyFloat.num (mkRat 10 1), none, none⟩

/-- A refund record fixture. -/
def rfTx : RefundRec :=
  ⟨some 40, some 1, some 2, some 3, PyFloat.num (mkRat 10 1), none, none⟩

/-- Final store of a loader call, whether it returned or raised. -/
def resultStore : Except Store (Store × ℕ) → Store
  | Except.ok (st, _) => st
  | Except.error st => st

/-- Final store of a sub-batch loop, whether it returned or raised. -/
def exceptStore : Except Store Store → Store
  | Except.ok st => st
  | Except.error st => st

/-! Helper lemmas about the embedded primitives. -/

/-- Joining the tokens of `pySplitGo` recovers exactly the non-whitespace
characters, prefixed by the pending token. -/
theorem flatten_pySplitGo (l : List Char) :
    ∀ cur, (pySplitGo cur l).flatten = cur.reverse ++ l.filter (fun c => !pyIsSpace c) := by
  induction l with
  | nil =>
    intro cur
    by_cases h : cur.isEmpty
    · simp [pySplitGo, h, List.isEmpty_iff.mp h]
    · simp [pySplitGo, h]
  | cons c cs ih =>
    intro cur
    by_cases hsp : pyIsSpace c
    · by_cases h : cur.isEmpty
      · simp [pySplitGo, hsp, h, ih, List.isEmpty_iff.mp h]
      · simp [pySplitGo, hsp, h, ih]
    · simp [pySplitGo, hsp, ih, List.filter_cons, List.reverse_cons]

/-- Empty tokens contribute nothing to a join, so filtering them out first
changes nothing. -/
theorem flatten_filter_nonempty (L : List (List Char)) :
    (L.filter (fun p => !p.isEmpty)).flatten = L.flatten := by
  induction L with
  | nil => rfl
  | cons p ps ih =>
    by_cases h : p.isEmpty
    · simp [List.filter_cons, h, ih, List.isEmpty_iff.mp h]
    · simp [List.filter_cons, h, ih]

/-- `dropWhile` is the identity on a list none of whose elements satisfy the
predicate. -/
theorem dropWhile_eq_self_of_none {p : Char → Bool} {l : List Char}
    (h : ∀ c ∈ l, p c = false) : l.dropWhile p = l := by
  cases l with
  | nil => rfl
  | cons c cs => simp [List.dropWhile_cons, h c (by simp)]

/-- `pyStripChars` is the identity on whitespace-free lists. -/
theorem pyStripChars_eq_self {l : List Char}
    (h : ∀ c ∈ l, pyIsSpace c = false) : pyStripChars l = l := by
  unfold pyStripChars
  rw [dropWhile_eq_self_of_none h]
  rw [dropWhile_eq_self_of_none (fun c hc => h c (List.mem_reverse.mp hc))]
  exact List.reverse_reverse l

/-- For a positive chunk size, any two sufficient fuels give the same
chunks. -/
theorem chunksOfGo_fuel {α : Type} (n : ℕ) (hn : 0 < n) :
    ∀ (k : ℕ) (l : List α), l.length ≤ k → ∀ f1 f2, l.length ≤ f1 → l.length ≤ f2 →
      chunksOfGo n f1 l = chunksOfGo n f2 l := by
  intro k
  induction k with
  | zero =>
    intro l hl f1 f2 _ _
    cases l with
    | nil => cases f1 <;> cases f2 <;> rfl
    | cons x xs => simp at hl
  | succ k ihk =>
    intro l hl f1 f2 h1 h2
    cases l with
    | nil => cases f1 <;> cases f2 <;> rfl
    | cons x xs =>
      cases f1 with
      | zero => simp at h1
      | succ f1 =>
        cases f2 with
        | zero => simp at h2
        | succ f2 =>
          simp only [chunksOfGo]
          congr 1
          apply ihk ((x :: xs).drop n)
          · simp only [List.length_drop, List.length_cons]
            simp only [List.length_cons] at hl
            omega
          · simp only [List.length_drop, List.length_cons]
            simp only [List.length_cons] at h1
            omega
          · simp only [List.length_drop, List.length_cons]
            simp only [List.length_cons] at h2
            omega

/-- Unfolding equation of `chunksOf` for a positive chunk size. -/
theorem chunksOf_eq {α : Type} (n : ℕ) (hn : 0 < n) (l : List α) :
    chunksOf n l = (if l.isEmpty then [] else l.take n :: chunksOf n (l.drop n)) := by
  have hne : ¬((n == 0) = true) := by simp; omega
  cases l with
  | nil => simp [chunksOf, chunksOfGo]
  | cons x xs =>
    have hd : ((x :: xs).drop n).length ≤ xs.length := by
      simp only [List.length_drop, List.length_cons]
      omega
    unfold chunksOf
    simp only [if_neg hne, List.isEmpty_cons, Bool.false_eq_true, if_false, List.length_cons,
      chunksOfGo]
    congr 1
    exact chunksOfGo_fuel n hn xs.length ((x :: xs).drop n) hd xs.length
      ((x :: xs).drop n).length hd le_rfl

/-- The two character filters of `clean_column_name` combine into the single
predicate named by the specification. -/
theorem cleanPred_pointwise (c : Char) :
    (!(['.', '_'].contains c) && !pyIsSpace c) =
      !(pyIsSpace c || c == '.' || c == '_') := by
  cases h1 : pyIsSpace c <;> cases h2 : c == '.' <;> cases h3 : c == '_' <;>
    simp [List.contains, List.elem, h1, h2, h3]

/-- Every element of every chunk of `chunksOf` is an element of the original
list. -/
theorem mem_of_mem_chunksOf {α : Type} (n : ℕ) (hn : 0 < n) :
    ∀ (k : ℕ) (l : List α), l.length ≤ k → ∀ b ∈ chunksOf n l, ∀ x ∈ b, x ∈ l := by
  intro k
  induction k with
  | zero =>
    intro l hl b hb x _
    have hnil : l = [] := List.eq_nil_of_length_eq_zero (Nat.le_zero.mp hl)
    subst hnil
    simp [chunksOf, chunksOfGo] at hb
  | succ k ih =>
    intro l hl b hb x hx
    cases l with
    | nil => simp [chunksOf, chunksOfGo] at hb
    | cons a as =>
      rw [chunksOf_eq n hn] at hb
      simp only [List.isEmpty_cons, Bool.false_eq_true, if_false, List.mem_cons] at hb
      rcases hb with hb | hb
      · subst hb
        exact List.take_subset _ _ hx
      · have hdl2 : ((a :: as).drop n).length ≤ k := by
          rw [List.length_drop, List.length_cons]
          simp only [List.length_cons] at hl
          omega
        exact List.drop_subset _ _ (ih _ hdl2 b hb x hx)

/-- Every chunk produced by `chunksOf n` has at most `n` elements. -/
theorem chunksOf_length_le {α : Type} (n : ℕ) (hn : 0 < n) :
    ∀ (k : ℕ) (l : List α), l.length ≤ k → ∀ b ∈ chunksOf n l, b.length ≤ n := by
  intro k
  induction k with
  | zero =>
    intro l hl b hb
    have hnil : l = [] := List.eq_nil_of_length_eq_zero (Nat.le_zero.mp hl)
    subst hnil
    simp [chunksOf, chunksOfGo] at hb
  | succ k ih =>
    intro l hl b hb
    cases l with
    | nil => simp [chunksOf, chunksOfGo] at hb
    | cons a as =>
      rw [chunksOf_eq n hn] at hb
      simp only [List.isEmpty_cons, Bool.false_eq_true, if_false, List.mem_cons] at hb
      rcases hb with hb | hb
      · subst hb
        rw [List.length_take]
        exact min_le_left _ _
      · have hdl2 : ((a :: as).drop n).length ≤ k := by
          rw [List.length_drop, List.length_cons]
          simp only [List.length_cons] at hl
          omega
        exact ih _ hdl2 b hb

/-- Every booking row present after a sub-batch loop was already stored or
came from one of the given sub-batches. -/
theorem runBookingBatches_bookings_sub (insertOk : ℕ → Bool) :
    ∀ (bs : List (List BookingRec)) (k : ℕ) (st : Store) (x : BookingRec),
      x ∈ (exceptStore (runBookingBatches insertOk k st bs)).bookings →
      x ∈ st.bookings ∨ ∃ b ∈ bs, x ∈ b := by
  intro bs
  induction bs with
  | nil =>
    intro k st x hx
    simp only [runBookingBatches, exceptStore] at hx
    exact Or.inl hx
  | cons b rest ih =>
    intro k st x hx
    by_cases hk : insertOk k = true
    · simp only [runBookingBatches, if_pos hk] at hx
      rcases ih (k + 1) (commitBookings st b) x hx with hx2 | ⟨b2, hb2, hxb⟩
      · simp only [commitBookings] at hx2
        rcases List.mem_append.mp hx2 with hx3 | hx3
        · exact Or.inl hx3
        · exact Or.inr ⟨b, List.mem_cons_self _ _, hx3⟩
      · exact Or.inr ⟨b2, List.mem_cons_of_mem _ hb2, hxb⟩
    · simp only [runBookingBatches, if_neg hk, exceptStore] at hx
      exact Or.inl hx

/-- Refund analogue of `runBookingBatches_bookings_sub`. -/
theorem runRefundBatches_refunds_sub (insertOk : ℕ → Bool) :
    ∀ (bs : List (List RefundRec)) (k : ℕ) (st : Store) (x : RefundRec),
      x ∈ (exceptStore (runRefundBatches insertOk k st bs)).refunds →
      x ∈ st.refunds ∨ ∃ b ∈ bs, x ∈ b := by
  intro bs
  induction bs with
  | nil =>
    intro k st x hx
    simp only [runRefundBatches, exceptStore] at hx
    exact Or.inl hx
  | cons b rest ih =>
    intro k st x hx
    by_cases hk : insertOk k = true
    · simp only [runRefundBatches, if_pos hk] at hx
      rcases ih (k + 1) (commitRefunds st b) x hx with hx2 | ⟨b2, hb2, hxb⟩
      · simp only [commitRefunds] at hx2
        rcases List.mem_append.mp hx2 with hx3 | hx3
        · exact Or.inl hx3
        · exact Or.inr ⟨b, List.mem_cons_self _ _, hx3⟩
      · exact Or.inr ⟨b2, List.mem_cons_of_mem _ hb2, hxb⟩
    · simp only [runRefundBatches, if_neg hk, exceptStore] at hx
      exact Or.inl hx

/-- A sub-batch loop whose first failing index is `k` (relative to the
starting index `k0`) raises with exactly the first `k` sub-batches
committed. -/
theorem runBookingBatches_first_fail (insertOk : ℕ → Bool) :
    ∀ (bs : List (List BookingRec)) (k0 k : ℕ) (st : Store),
      (∀ j, j < k → insertOk (k0 + j) = true) → insertOk (k0 + k) = false →
      k < bs.length →
      runBookingBatches insertOk k0 st bs =
        Except.error ((bs.take k).foldl commitBookings st) := by
  intro bs
  induction bs with
  | nil =>
    intro k0 k st _ _ hk
    simp at hk
  | cons b rest ih =>
    intro k0 k st h1 h2 hk
    cases k with
    | zero =>
      have h2b : insertOk k0 = false := by simpa using h2
      simp [runBookingBatches, h2b]
    | succ k =>
      have hb : insertOk k0 = true := by simpa using h1 0 (Nat.succ_pos k)
      simp only [runBookingBatches, if_pos hb]
      have h1b : ∀ j, j < k → insertOk (k0 + 1 + j) = true := by
        intro j hj
        have heq : k0 + 1 + j = k0 + (j + 1) := by omega
        rw [heq]
        exact h1 (j + 1) (by omega)
      have h2b : insertOk (k0 + 1 + k) = false := by
        have heq : k0 + 1 + k = k0 + (k + 1) := by omega
        rw [heq]
        exact h2
      rw [ih (k0 + 1) k (commitBookings st b) h1b h2b (by simpa using hk)]
      simp [List.take_succ_cons]

/-- Refund analogue of `runBookingBatches_first_fail`. -/
theorem runRefundBatches_first_fail (insertOk : ℕ → Bool) :
    ∀ (bs : List (List RefundRec)) (k0 k : ℕ) (st : Store),
      (∀ j, j < k → insertOk (k0 + j) = true) → insertOk (k0 + k) = false →
      k < bs.length →
      runRefundBatches insertOk k0 st bs =
        Except.error ((bs.take k).foldl commitRefunds st) := by
  intro bs
  induction bs with
  | nil =>
    intro k0 k st _ _ hk
    simp at hk
  | cons b rest ih =>
    intro k0 k st h1 h2 hk
    cases k with
    | zero =>
      have h2b : insertOk k0 = false := by simpa using h2
      simp [runRefundBatches, h2b]
    | succ k =>
      have hb : insertOk k0 = true := by simpa using h1 0 (Nat.succ_pos k)
      simp only [runRefundBatches, if_pos hb]
      have h1b : ∀ j, j < k → insertOk (k0 + 1 + j) = true := by
        intro j hj
        have heq : k0 + 1 + j = k0 + (j + 1) := by omega
        rw [heq]
        exact h1 (j + 1) (by omega)
      have h2b : insertOk (k0 + 1 + k) = false := by
        have heq : k0 + 1 + k = k0 + (k + 1) := by omega
        rw [heq]
        exact h2
      rw [ih (k0 + 1) k (commitRefunds st b) h1b h2b (by simpa using hk)]
      simp [List.take_succ_cons]

/-- Every booking row present after a `bulk_create` call (returned or
raised) was already stored or survived the pre-insert existence check. -/
theorem bulk_create_booking_bookings_sub (insertOk : ℕ → Bool) (st : Store)
    (txs : List BookingRec) (x : BookingRec)
    (hx : x ∈ (resultStore (bulk_create_booking_transactions insertOk st txs)).bookings) :
    x ∈ st.bookings ∨ x ∈ new_booking_transactions st.bookingOrders txs := by
  simp only [bulk_create_booking_transactions] at hx
  split at hx
  · simp only [resultStore] at hx
    exact Or.inl hx
  · rename_i hne
    split at hx
    case h_1 st2 hrun =>
      simp only [resultStore] at hx
      have hx2 : x ∈ (exceptStore (runBookingBatches insertOk 0 st
          (chunksOf 500 (new_booking_transactions st.bookingOrders txs)))).bookings := by
        rw [hrun]
        exact hx
      rcases runBookingBatches_bookings_sub insertOk _ 0 st x hx2 with h | ⟨b, hb, hxb⟩
      · exact Or.inl h
      · exact Or.inr (mem_of_mem_chunksOf 500 (by omega) _ _ le_rfl b hb x hxb)
    case h_2 st2 hrun =>
      simp only [resultStore] at hx
      have hx2 : x ∈ (exceptStore (runBookingBatches insertOk 0 st
          (chunksOf 500 (new_booking_transactions st.bookingOrders txs)))).bookings := by
        rw [hrun]
        exact hx
      rcases runBookingBatches_bookings_sub insertOk _ 0 st x hx2 with h | ⟨b, hb, hxb⟩
      · exact Or.inl h
      · exact Or.inr (mem_of_mem_chunksOf 500 (by omega) _ _ le_rfl b hb x hxb)

/-! Claim theorems. -/

/-- Claim C8: `clean_column_name` is a pure total function over strings: for
every input string the output equals the input with all whitespace
characters and all `.` and `_` characters removed, with case and every
other character preserved in order, and the empty string maps to the empty
string. -/
theorem clean_column_name_spec (s : String) :
    clean_column_name s =
      ⟨s.data.filter (fun c => !(pyIsSpace c || c == '.' || c == '_'))⟩ ∧
    clean_column_name "" = "" := by
  constructor
  · show (⟨pyStripChars ((((pySplit s.data).filter (fun p => !p.isEmpty)).flatten).filter
      (fun c => !(['.', '_'].contains c)))⟩ : String) = _
    have h1 : ((pySplit s.data).filter (fun p => !p.isEmpty)).flatten =
        s.data.filter (fun c => !pyIsSpace c) := by
      rw [flatten_filter_nonempty]
      have := flatten_pySplitGo s.data []
      simpa [pySplit] using this
    rw [h1, List.filter_filter]
    have h2 : s.data.filter (fun c => !(['.', '_'].contains c) && !pyIsSpace c) =
        s.data.filter (fun c => !(pyIsSpace c || c == '.' || c == '_')) := by
      apply List.filter_congr
      intro c _
      exact cleanPred_pointwise c
    rw [h2]
    congr 1
    apply pyStripChars_eq_self
    intro c hc
    rcases List.mem_filter.mp hc with ⟨_, hpred⟩
    cases h : pyIsSpace c
    · rfl
    · rw [h] at hpred
      simp at hpred
  · rfl

/-- Claim C6 (amended): integer-field parse failures are absorbed during row
conversion — `convert_to_int` returns `None`, never raising, on missing
(`NaN`), empty-string, and non-numeric input (and date parsing coerces
failures to `NaT`); a malformed amount string, by contrast, raises out of
chunk processing (see `malformed_amount_raises`). -/
theorem convert_to_int_absorbs_failures (s : String) (h : pyParseFloat s = none) :
    convert_to_int (Cell.str s) = none ∧ convert_to_int Cell.nan = none ∧
      convert_to_int (Cell.str "") = none := by
  refine ⟨?_, rfl, by decide⟩
  show (if s = "" then none
        else match pyParseFloat s with
             | none => none
             | some PyFloat.nan => none
             | some (PyFloat.inf _) => none
             | some (PyFloat.num q) => some (pyTruncQ q)) = none
  by_cases hs : s = ""
  · rw [if_pos hs]
  · rw [if_neg hs, h]

/-- Witness for `convert_to_int_absorbs_failures` at the non-numeric input
`"abc"`. -/
theorem convert_to_int_absorbs_failures_witness :
    convert_to_int (Cell.str "abc") = none ∧ convert_to_int Cell.nan = none ∧
      convert_to_int (Cell.str "") = none :=
  convert_to_int_absorbs_failures "abc" (by decide)

/-- Claim C6 counterexample: a malformed booking-amount string in a row with
valid keys makes the bare `float(...)` call raise a `ValueError`, and the
exception escapes `process_dataframe_chunk` (modelled by `none`) — refuting
the claim that every field-level parse failure is absorbed with no exception
propagating out of chunk processing. -/
theorem malformed_amount_raises :
    process_dataframe_chunk "karur_vysya" "booking" noDate kvBookingHeaders
      [bkRow (Cell.str "1") (Cell.str "2") (Cell.str "abc")] = none := by decide

/-- Claim C4 evaluated at its failing input: a booking row whose amount cell
is missing (`NaN`) produces a canonical record whose `booking_amount` is
`float nan` — not the `0.0` the claim (and the spec) state.  The `0.0`
default of `row.get` applies only when the amount column is absent, and the
booking pass only runs when that column is present. -/
theorem missing_amount_gives_nan :
    process_dataframe_chunk "karur_vysya" "booking" noDate kvBookingHeaders
      [bkRow (Cell.str "1") (Cell.str "2") Cell.nan] =
      some ([⟨some 40, some 1, some 2, PyFloat.nan, none, none⟩], []) ∧
    PyFloat.nan ≠ PyFloat.num (mkRat 0 1) := by decide

/-- Claim C5 counterexample: a row whose IRCTC order number converts to the
non-null integer `0` (and whose booking reference is the non-null `5`) is
excluded from the batch — the eligibility test is Python truthiness, which
treats the integer `0` like a missing value, refuting the claimed
"both keys non-null" characterisation. -/
theorem zero_key_row_excluded :
    process_dataframe_chunk "karur_vysya" "booking" noDate kvBookingHeaders
      [bkRow (Cell.str "0") (Cell.str "5") (Cell.str "10")] = some ([], []) ∧
    convert_to_int (Cell.str "0") = some 0 ∧ convert_to_int (Cell.str "5") = some 5 := by
  decide

/-- Claim C10: in-chunk deduplication tests the reference number against the
set of previously accepted order numbers — a chunk whose second row has all
keys distinct from the accepted row's keys except that its booking
reference equals the first row's order number loses that second row as a
"duplicate". -/
theorem ref_matching_order_dropped :
    process_dataframe_chunk "karur_vysya" "booking" noDate kvBookingHeaders
      [bkRow (Cell.str "1") (Cell.str "2") (Cell.str "10"),
       bkRow (Cell.str "3") (Cell.str "1") (Cell.str "10")] =
      some ([⟨some 40, some 1, some 2, PyFloat.num (mkRat 10 1), none, none⟩], []) := by
  decide

/-- Claim C1 counterexample: two rows with distinct order numbers but the
same bank booking reference number are both accepted (the reference number
is never added to the seen set), so two accepted records of one chunk do
share a bank booking reference number — refuting the claim as stated. -/
theorem shared_booking_ref_both_accepted :
    process_dataframe_chunk "karur_vysya" "booking" noDate kvBookingHeaders
      [bkRow (Cell.str "1") (Cell.str "5") (Cell.str "10"),
       bkRow (Cell.str "2") (Cell.str "5") (Cell.str "10")] =
      some ([⟨some 40, some 1, some 5, PyFloat.num (mkRat 10 1), none, none⟩,
             ⟨some 40, some 2, some 5, PyFloat.num (mkRat 10 1), none, none⟩], []) ∧
    ¬ (([⟨some 40, some 1, some 5, PyFloat.num (mkRat 10 1), none, none⟩,
         (⟨some 40, some 2, some 5, PyFloat.num (mkRat 10 1), none, none⟩ : BookingRec)].map
          BookingRec.bank_booking_ref_no).Nodup) := by
  decide

/-- Claim C5 (amended): a row of the booking pass contributes exactly one
record iff both primary key fields convert to non-null, nonzero integers
(Python truthiness excludes a zero key like a missing one) and neither
converted key matches a previously accepted order number; otherwise the
accumulated records are unchanged (the refund pass is structurally
identical with `bank_refund_ref_no` in place of `bank_booking_ref_no`). -/
theorem booking_row_eligibility (bank : String) (pdDate : Option Cell → Option ℤ)
    (cols : List String) (row : List Cell) (st : PassState BookingRec) (co cr : Cell)
    (amt : PyFloat)
    (h1 : rowIndex cols row "irctc_order_no" = some co)
    (h2 : rowIndex cols row "bank_booking_ref_no" = some cr)
    (h3 : amountGet cols row "booking_amount" = some amt) :
    ∃ st2, bookingStep bank pdDate cols st row = some st2 ∧
      ((∃ tx, st2.recs = st.recs ++ [tx]) ↔
        (pyTruthy (convert_to_int co) = true ∧ pyTruthy (convert_to_int cr) = true ∧
         optMem (convert_to_int co) st.seen = false ∧
         optMem (convert_to_int cr) st.seen = false)) := by
  simp only [bookingStep, h1, h2, h3]
  by_cases hd : (optMem (convert_to_int co) st.seen || optMem (convert_to_int cr) st.seen) = true
  · rw [if_pos hd]
    refine ⟨st, rfl, ?_⟩
    constructor
    · rintro ⟨tx, htx⟩
      exact absurd (congrArg List.length htx) (by simp)
    · rintro ⟨_, _, h4, h5⟩
      rw [h4, h5] at hd
      simp at hd
  · rw [if_neg hd]
    rw [Bool.or_eq_true, not_or] at hd
    by_cases ht : (pyTruthy (convert_to_int co) && pyTruthy (convert_to_int cr)) = true
    · rw [if_pos ht]
      rw [Bool.and_eq_true] at ht
      refine ⟨_, rfl, ?_⟩
      constructor
      · intro _
        exact ⟨ht.1, ht.2, (Bool.not_eq_true _).mp hd.1, (Bool.not_eq_true _).mp hd.2⟩
      · intro _
        exact ⟨_, rfl⟩
    · rw [if_neg ht]
      refine ⟨st, rfl, ?_⟩
      constructor
      · rintro ⟨tx, htx⟩
        exact absurd (congrArg List.length htx) (by simp)
      · rintro ⟨h4, h5, _, _⟩
        rw [Bool.and_eq_true] at ht
        exact absurd ⟨h4, h5⟩ ht

/-- Witness for `booking_row_eligibility`: a concrete eligible row under the
canonical column names. -/
theorem booking_row_eligibility_witness :
    ∃ st2, bookingStep "karur_vysya" noDate
        ["irctc_order_no", "bank_booking_ref_no", "booking_amount"]
        (⟨[], []⟩ : PassState BookingRec)
        [Cell.str "1", Cell.str "2", Cell.str "10"] = some st2 ∧
      ((∃ tx, st2.recs = ([] : List BookingRec) ++ [tx]) ↔
        (pyTruthy (convert_to_int (Cell.str "1")) = true ∧
         pyTruthy (convert_to_int (Cell.str "2")) = true ∧
         optMem (convert_to_int (Cell.str "1")) [] = false ∧
         optMem (convert_to_int (Cell.str "2")) [] = false)) :=
  booking_row_eligibility "karur_vysya" noDate
    ["irctc_order_no", "bank_booking_ref_no", "booking_amount"] _ ⟨[], []⟩
    (Cell.str "1") (Cell.str "2") (PyFloat.num (mkRat 10 1)) (by decide) (by decide)
    (by decide)

/-- Outcome shape of one booking-loop iteration: either the state is
unchanged (duplicate skip or non-truthy keys) or exactly one record with a
fresh truthy order number is appended and that order number enters the seen
set. -/
theorem bookingStep_cases (bank : String) (pdDate : Option Cell → Option ℤ)
    (cols : List String) (st : PassState BookingRec) (row : List Cell)
    (st2 : PassState BookingRec)
    (h : bookingStep bank pdDate cols st row = some st2) :
    st2 = st ∨ ∃ tx n, tx.irctc_order_no = some n ∧ st.seen.contains n = false ∧
      st2.seen = n :: st.seen ∧ st2.recs = st.recs ++ [tx] := by
  unfold bookingStep at h
  cases hco : rowIndex cols row "irctc_order_no" with
  | none =>
    rw [hco] at h
    cases hcr : rowIndex cols row "bank_booking_ref_no" <;> rw [hcr] at h <;> simp at h
  | some co =>
    rw [hco] at h
    cases hcr : rowIndex cols row "bank_booking_ref_no" with
    | none =>
      rw [hcr] at h
      simp at h
    | some cr =>
      rw [hcr] at h
      dsimp only at h
      by_cases hd : (optMem (convert_to_int co) st.seen ||
          optMem (convert_to_int cr) st.seen) = true
      · rw [if_pos hd] at h
        left
        exact (Option.some_injective _ h).symm
      · rw [if_neg hd] at h
        cases hamt : amountGet cols row "booking_amount" with
        | none =>
          rw [hamt] at h
          simp at h
        | some amt =>
          rw [hamt] at h
          dsimp only at h
          by_cases ht : (pyTruthy (convert_to_int co) &&
              pyTruthy (convert_to_int cr)) = true
          · rw [if_pos ht] at h
            rw [Bool.and_eq_true] at ht
            cases hoc : convert_to_int co with
            | none =>
              rw [hoc] at ht
              exact absurd ht.1 (by simp [pyTruthy])
            | some n =>
              right
              have hst2 := (Option.some_injective _ h).symm
              refine ⟨⟨BANK_CODE_MAPPING bank, convert_to_int co, convert_to_int cr, amt,
                pdDate (rowIndex cols row "transaction_date"),
                pdDate (rowIndex cols row "credited_date")⟩, n, hoc, ?_, ?_, ?_⟩
              · have hd1 : optMem (convert_to_int co) st.seen = false := by
                  cases hx : optMem (convert_to_int co) st.seen
                  · rfl
                  · exact absurd (by rw [Bool.or_eq_true]; left; exact hx) hd
                rw [hoc] at hd1
                simpa [optMem] using hd1
              · rw [hst2]
                simp [insertKey, hoc]
              · rw [hst2]
          · rw [if_neg ht] at h
            left
            exact (Option.some_injective _ h).symm

/-- Invariant of the booking loop: if every accepted record's order number is
a recorded seen integer and the accepted order numbers are pairwise
distinct, both facts persist through the loop. -/
theorem bookingPass_nodup_inv (bank : String) (pdDate : Option Cell → Option ℤ)
    (cols : List String) :
    ∀ (rows : List (List Cell)) (st st2 : PassState BookingRec),
      bookingPass bank pdDate cols st rows = some st2 →
      (∀ tx ∈ st.recs, ∃ n, tx.irctc_order_no = some n ∧ n ∈ st.seen) →
      (st.recs.map BookingRec.irctc_order_no).Nodup →
      (∀ tx ∈ st2.recs, ∃ n, tx.irctc_order_no = some n ∧ n ∈ st2.seen) ∧
        (st2.recs.map BookingRec.irctc_order_no).Nodup := by
  intro rows
  induction rows with
  | nil =>
    intro st st2 h hmem hnd
    cases h
    exact ⟨hmem, hnd⟩
  | cons row rest ih =>
    intro st st2 h hmem hnd
    unfold bookingPass at h
    split at h
    · exact absurd h (by simp)
    · rename_i stm hstep
      rcases bookingStep_cases bank pdDate cols st row stm hstep with heq | ⟨tx, n, htx, hn, hseen, hrecs⟩
      · rw [heq] at h
        exact ih _ st2 h hmem hnd
      · apply ih stm st2 h
        · intro u hu
          rw [hrecs] at hu
          rcases List.mem_append.mp hu with hu | hu
          · rcases hmem u hu with ⟨m, hm1, hm2⟩
            exact ⟨m, hm1, by rw [hseen]; exact List.mem_cons_of_mem _ hm2⟩
          · rw [List.mem_singleton.mp hu]
            exact ⟨n, htx, by rw [hseen]; exact List.mem_cons_self _ _⟩
        · rw [hrecs, List.map_append]
          rw [List.nodup_append]
          refine ⟨hnd, by simp, ?_⟩
          intro a ha hb
          simp only [List.map_cons, List.map_nil, List.mem_singleton] at hb
          subst hb
          rcases List.mem_map.mp ha with ⟨u, hu, hord⟩
          rcases hmem u hu with ⟨m, hm1, hm2⟩
          rw [htx] at hord
          rw [hm1] at hord
          have hmn : m = n := Option.some_injective _ hord
          subst hmn
          have hnin : m ∉ st.seen := by simpa using hn
          exact hnin hm2

/-- Claim C1 (amended): within one processed chunk no two accepted booking
records share an IRCTC order number (first-seen wins); a later row is
dropped exactly when its order number or its booking reference number
equals a previously accepted order number, and accepted records may share a
bank booking reference number because reference numbers are never added to
the seen set. -/
theorem accepted_booking_orders_nodup (bank ttype : String)
    (pdDate : Option Cell → Option ℤ) (cols : List String) (rows : List (List Cell))
    (bk : List BookingRec) (rf : List RefundRec)
    (h : process_dataframe_chunk bank ttype pdDate cols rows = some (bk, rf)) :
    (bk.map BookingRec.irctc_order_no).Nodup := by
  unfold process_dataframe_chunk at h
  split at h
  case isFalse => simp at h
  case isTrue =>
    split at h
    case isFalse => simp at h
    case isTrue =>
      unfold assembleBatches at h
      split at h
      case isTrue =>
        have hp := Option.some_injective _ h
        have hbk : bk = [] := (congrArg Prod.fst hp).symm
        rw [hbk]
        exact List.nodup_nil
      case isFalse =>
        split at h
        case h_1 => simp at h
        case h_2 bst hbst =>
          split at h
          case h_1 => simp at h
          case h_2 rst hrst =>
            have hp := Option.some_injective _ h
            have hbk : bk = bst.recs := (congrArg Prod.fst hp).symm
            rw [hbk]
            split at hbst
            · exact (bookingPass_nodup_inv bank pdDate _ _ _ _ hbst (by simp) (by simp)).2
            · have hb0 : bst = ⟨[], []⟩ := (Option.some_injective _ hbst).symm
              rw [hb0]
              exact List.nodup_nil

/-- Witness for `accepted_booking_orders_nodup` at the two-row chunk which
shares a booking reference number across its accepted records. -/
theorem accepted_booking_orders_nodup_witness :
    (([⟨some 40, some 1, some 5, PyFloat.num (mkRat 10 1), none, none⟩,
       (⟨some 40, some 2, some 5, PyFloat.num (mkRat 10 1), none, none⟩ : BookingRec)].map
        BookingRec.irctc_order_no)).Nodup :=
  accepted_booking_orders_nodup "karur_vysya" "booking" noDate kvBookingHeaders
    [bkRow (Cell.str "1") (Cell.str "5") (Cell.str "10"),
     bkRow (Cell.str "2") (Cell.str "5") (Cell.str "10")] _ [] (by decide)

/-- Claim C2: for every call to a bulk loader, every candidate whose IRCTC
order number is already present in the corresponding table is excluded from
`new_transactions` before the insert step (bookings and refunds alike), and
every booking row the insert loop ever stores comes from the original store
or from `new_transactions` — so no insert is attempted for an excluded
record, independently of the conflict-tolerant insert. -/
theorem existing_orders_excluded (dbB dbR : List ℤ) (txsB : List BookingRec)
    (txsR : List RefundRec) :
    (∀ t ∈ txsB, ∀ n : ℤ, t.irctc_order_no = some n → n ∈ dbB →
      t ∉ new_booking_transactions dbB txsB) ∧
    (∀ u ∈ txsR, ∀ n : ℤ, u.irctc_order_no = some n → n ∈ dbR →
      u ∉ new_refund_transactions dbR txsR) ∧
    (∀ (insertOk : ℕ → Bool) (st : Store) (x : BookingRec),
      x ∈ (resultStore (bulk_create_booking_transactions insertOk st txsB)).bookings →
      x ∈ st.bookings ∨ x ∈ new_booking_transactions st.bookingOrders txsB) := by
  refine ⟨?_, ?_, fun insertOk st x hx =>
    bulk_create_booking_bookings_sub insertOk st txsB x hx⟩
  · intro t ht n hn hdb hmem
    simp only [new_booking_transactions] at hmem
    rcases List.mem_filter.mp hmem with ⟨_, hp⟩
    rw [hn] at hp
    have hp2 : n ∉ dbB ∨ ∀ x ∈ txsB, ¬x.irctc_order_no = some n := by simpa using hp
    rcases hp2 with h | h
    · exact h hdb
    · exact h t ht hn
  · intro u hu n hn hdb hmem
    simp only [new_refund_transactions] at hmem
    rcases List.mem_filter.mp hmem with ⟨_, hp⟩
    rw [hn] at hp
    have hp2 : n ∉ dbR ∨ ∀ x ∈ txsR, ¬x.irctc_order_no = some n := by simpa using hp
    rcases hp2 with h | h
    · exact h hdb
    · exact h u hu hn

/-- Witness for `existing_orders_excluded`: a booking and a refund candidate
whose order numbers `1` already exist in their tables are excluded. -/
theorem existing_orders_excluded_witness :
    bkTx ∉ new_booking_transactions [1] [bkTx] ∧
      rfTx ∉ new_refund_transactions [1] [rfTx] :=
  ⟨(existing_orders_excluded [1] [1] [bkTx] [rfTx]).1 bkTx (by decide) 1 (by decide)
      (by decide),
    (existing_orders_excluded [1] [1] [bkTx] [rfTx]).2.1 rfTx (by decide) 1 (by decide)
      (by decide)⟩

/-- Claim C7: the bulk loaders split the surviving candidates into
sub-batches of at most 500; when the insert of sub-batch `k` (the first
failing one) raises, the call re-raises with exactly the sub-batches before
`k` committed — previously committed sub-batches stay committed and later
sub-batches are never attempted. -/
theorem subbatch_partial_failure (insertOkB insertOkR : ℕ → Bool) (st : Store)
    (txsB : List BookingRec) (txsR : List RefundRec) (k : ℕ)
    (h1 : ∀ j, j < k → insertOkB j = true) (h2 : insertOkB k = false)
    (hk : k < (chunksOf 500 (new_booking_transactions st.bookingOrders txsB)).length)
    (h1r : ∀ j, j < k → insertOkR j = true) (h2r : insertOkR k = false)
    (hkr : k < (chunksOf 500 (new_refund_transactions st.refundOrders txsR)).length) :
    bulk_create_booking_transactions insertOkB st txsB =
      Except.error
        (((chunksOf 500 (new_booking_transactions st.bookingOrders txsB)).take k).foldl
          commitBookings st) ∧
    bulk_create_refund_transactions insertOkR st txsR =
      Except.error
        (((chunksOf 500 (new_refund_transactions st.refundOrders txsR)).take k).foldl
          commitRefunds st) ∧
    (∀ b ∈ chunksOf 500 (new_booking_transactions st.bookingOrders txsB),
      b.length ≤ 500) ∧
    (∀ b ∈ chunksOf 500 (new_refund_transactions st.refundOrders txsR),
      b.length ≤ 500) := by
  have hneB : (new_booking_transactions st.bookingOrders txsB).isEmpty = false := by
    cases hE : (new_booking_transactions st.bookingOrders txsB).isEmpty
    · rfl
    · exfalso
      have h0 : new_booking_transactions st.bookingOrders txsB = [] :=
        List.isEmpty_iff.mp hE
      rw [h0] at hk
      simp [chunksOf, chunksOfGo] at hk
  have hneR : (new_refund_transactions st.refundOrders txsR).isEmpty = false := by
    cases hE : (new_refund_transactions st.refundOrders txsR).isEmpty
    · rfl
    · exfalso
      have h0 : new_refund_transactions st.refundOrders txsR = [] :=
        List.isEmpty_iff.mp hE
      rw [h0] at hkr
      simp [chunksOf, chunksOfGo] at hkr
  have hrunB := runBookingBatches_first_fail insertOkB
    (chunksOf 500 (new_booking_transactions st.bookingOrders txsB)) 0 k st
    (fun j hj => by simpa using h1 j hj) (by simpa using h2) hk
  have hrunR := runRefundBatches_first_fail insertOkR
    (chunksOf 500 (new_refund_transactions st.refundOrders txsR)) 0 k st
    (fun j hj => by simpa using h1r j hj) (by simpa using h2r) hkr
  refine ⟨?_, ?_, ?_, ?_⟩
  · simp only [bulk_create_booking_transactions, hneB, Bool.false_eq_true, if_false, hrunB]
  · simp only [bulk_create_refund_transactions, hneR, Bool.false_eq_true, if_false, hrunR]
  · exact fun b hb => chunksOf_length_le 500 (by omega) _ _ le_rfl b hb
  · exact fun b hb => chunksOf_length_le 500 (by omega) _ _ le_rfl b hb

/-- Witness for `subbatch_partial_failure`: a single candidate each, with the
very first sub-batch insert failing — the loaders raise with nothing newly
committed. -/
theorem subbatch_partial_failure_witness :
    bulk_create_booking_transactions (fun _ => false) emptyStore [bkTx] =
      Except.error
        (((chunksOf 500 (new_booking_transactions emptyStore.bookingOrders [bkTx])).take 0).foldl
          commitBookings emptyStore) ∧
    bulk_create_refund_transactions (fun _ => false) emptyStore [rfTx] =
      Except.error
        (((chunksOf 500 (new_refund_transactions emptyStore.refundOrders [rfTx])).take 0).foldl
          commitRefunds emptyStore) ∧
    (∀ b ∈ chunksOf 500 (new_booking_transactions emptyStore.bookingOrders [bkTx]),
      b.length ≤ 500) ∧
    (∀ b ∈ chunksOf 500 (new_refund_transactions emptyStore.refundOrders [rfTx]),
      b.length ≤ 500) :=
  subbatch_partial_failure (fun _ => false) (fun _ => false) emptyStore [bkTx] [rfTx] 0
    (fun j hj => absurd hj (by omega)) rfl (by decide)
    (fun j hj => absurd hj (by omega)) rfl (by decide)

/-- Claim C3 counterexample: an invocation whose first excel file has zero
data rows returns normally — `raised = false`, so no failure is surfaced to
the caller — even though a second, valid file follows (which is then
silently skipped); this refutes the claim that the empty file is a
surfaced, per-file failure. -/
theorem empty_file_not_surfaced :
    process_uploaded_files (fun _ => true) (fun _ => true) noDate "karur_vysya" "booking"
      "excel" [⟨kvBookingHeaders, []⟩,
        ⟨kvBookingHeaders, [bkRow (Cell.str "1") (Cell.str "2") (Cell.str "10")]⟩]
      emptyStore = ⟨emptyStore, [0], [], false⟩ := by
  decide

/-- Claim C3 (amended): an uploaded excel file with zero data rows makes the
pipeline log a no-data error and stop with nothing persisted for that file;
the failure is reported only through the log — the task returns normally,
no exception reaches the caller, and the remaining files of the invocation
are skipped. -/
theorem empty_first_file_logged_only (insertOkB insertOkR : ℕ → Bool)
    (pdDate : Option Cell → Option ℤ) (bank ttype : String) (df : DF)
    (rest : List DF) (st : Store) (h : df.rows.length = 0) :
    process_uploaded_files insertOkB insertOkR pdDate bank ttype "excel" (df :: rest) st =
      ⟨st, [0], [], false⟩ := by
  unfold process_uploaded_files processFilesGo
  simp [h]

/-- Witness for `empty_first_file_logged_only` at a concrete zero-row
file. -/
theorem empty_first_file_logged_only_witness :
    process_uploaded_files (fun _ => true) (fun _ => true) noDate "karur_vysya" "refund"
      "excel" [⟨kvBookingHeaders, []⟩] emptyStore = ⟨emptyStore, [0], [], false⟩ :=
  empty_first_file_logged_only (fun _ => true) (fun _ => true) noDate "karur_vysya"
    "refund" ⟨kvBookingHeaders, []⟩ [] emptyStore rfl

/-- Claim C9: for excel uploads, as soon as the file loop reaches a file
that parses to zero data rows, the task logs the no-data error and returns
normally — no exception, no chunk processing for that file, and no
processing at all for every later file (the `return` leaves the loop over
the remaining files). -/
theorem empty_file_stops_remaining_files (insertOkB insertOkR : ℕ → Bool)
    (pdDate : Option Cell → Option ℤ) (bank ttype : String) (i : ℕ) (st : Store)
    (log : List ℕ) (run : List (ℕ × ℕ)) (df : DF) (rest : List DF)
    (h : df.rows.length = 0) :
    processFilesGo insertOkB insertOkR pdDate bank ttype "excel" i st log run
      (df :: rest) = ⟨st, log ++ [i], run, false⟩ := by
  unfold processFilesGo
  simp [h]

/-- Witness for `empty_file_stops_remaining_files`: the loop at file index 3
meets an empty file while a further non-empty file is pending, and stops. -/
theorem empty_file_stops_remaining_files_witness :
    processFilesGo (fun _ => true) (fun _ => true) noDate "karur_vysya" "booking" "excel"
      3 emptyStore [] [(0, 0)]
      [⟨kvBookingHeaders, []⟩,
       ⟨kvBookingHeaders, [bkRow (Cell.str "1") (Cell.str "2") (Cell.str "10")]⟩] =
      ⟨emptyStore, [3], [(0, 0)], false⟩ :=
  empty_file_stops_remaining_files (fun _ => true) (fun _ => true) noDate "karur_vysya"
    "booking" 3 emptyStore [] [(0, 0)] ⟨kvBookingHeaders, []⟩
    [⟨kvBookingHeaders, [bkRow (Cell.str "1") (Cell.str "2") (Cell.str "10")]⟩] rfl

end Upload
